import Mathlib

/-!
Verification development for the job/escrow state machine, webhook
authentication and skill execution engine of this repository.

The TypeScript services are shallowly embedded as pure Lean functions over
explicit state records.  External collaborators that are not part of the
repository (the Stripe transfer call, the DOMPurify sanitizer, the worker
reputation service, the HMAC-SHA256 primitive from node:crypto) are taken
as function parameters; everything else is translated directly from the
source files.  Money amounts are modelled as exact integers in the
smallest unit in play (the operations embedded here only copy amounts and
add them to balances, never divide them), database timestamps as natural
numbers.
-/

/-! ### Association lists (model of table rows keyed by id) -/

/-- First row whose key equals `k` (model of `findFirst where eq(col, k)`). -/
def alookup {α : Type} : List (String × α) → String → Option α
  | [], _ => none
  | p :: rest, k => if p.1 = k then some p.2 else alookup rest k

/-- Apply `f` to every row whose key equals `k` (model of
`update ... where eq(col, k)`). -/
def aupdate {α : Type} : List (String × α) → String → (α → α) → List (String × α)
  | [], _, _ => []
  | p :: rest, k, f => (if p.1 = k then (p.1, f p.2) else p) :: aupdate rest k f

/-- Set key `k` to `v`, appending a fresh row when the key is absent. -/
def aset {α : Type} (l : List (String × α)) (k : String) (v : α) :
    List (String × α) :=
  if (alookup l k).isSome then aupdate l k (fun _ => v) else l ++ [(k, v)]

theorem alookup_aupdate_self {α : Type} (l : List (String × α)) (k : String)
    (f : α → α) : alookup (aupdate l k f) k = (alookup l k).map f := by
  induction l with
  | nil => rfl
  | cons p rest ih =>
    by_cases h : p.1 = k
    · simp [alookup, aupdate, h]
    · simp [alookup, aupdate, h, ih]

theorem alookup_aupdate_ne {α : Type} (l : List (String × α)) (k k' : String)
    (f : α → α) (h : k' ≠ k) : alookup (aupdate l k f) k' = alookup l k' := by
  induction l with
  | nil => rfl
  | cons p rest ih =>
    by_cases hp : p.1 = k
    · have hp' : p.1 ≠ k' := by rw [hp]; exact Ne.symm h
      have hk : k ≠ k' := Ne.symm h
      simp [alookup, aupdate, hp, hp', hk, ih]
    · by_cases hq : p.1 = k'
      · simp [alookup, aupdate, hp, hq, h, ih]
      · simp [alookup, aupdate, hp, hq, ih]

/-! ### Data model (from src/lib/db/schema via the service files) -/

inductive EscrowStatus where
  | locked
  | released
  | refunded
deriving DecidableEq, Repr

/-- The status string stored in the database column. -/
def EscrowStatus.str : EscrowStatus → String
  | .locked => "locked"
  | .released => "released"
  | .refunded => "refunded"

inductive JobStatus where
  | posted
  | in_progress
  | delivered
  | approved
  | rejected
  | cancelled
deriving DecidableEq, Repr

def JobStatus.str : JobStatus → String
  | .posted => "posted"
  | .in_progress => "in_progress"
  | .delivered => "delivered"
  | .approved => "approved"
  | .rejected => "rejected"
  | .cancelled => "cancelled"

inductive JobType where
  | skill
  | worker
deriving DecidableEq, Repr

/-- One escrow row, keyed externally by its `jobId` column. -/
structure EscrowRec where
  amount : Int
  platformFee : Int
  workerPayout : Int
  status : EscrowStatus
  stripeTransferId : Option String
  releasedAt : Option Nat
deriving DecidableEq, Repr

/-- One job row, keyed externally by its id. -/
structure JobRec where
  userId : String
  jtype : JobType
  skillId : Option String
  workerId : Option String
  task : String
  budget : Int
  status : JobStatus
  deliverableText : Option String
  deliverableUrl : Option String
  deliverableFiles : Option (List (String × String))
  rating : Option Int
  feedback : Option String
  deliveredAt : Option Nat
  completedAt : Option Nat
  timeoutAt : Option Nat
deriving DecidableEq, Repr

/-- The worker columns the payment service reads. -/
structure WorkerRec where
  stripeAccountId : Option String
deriving DecidableEq, Repr

/-- One append-only transaction audit row. -/
structure TxnRec where
  userId : String
  ttype : String
  amount : Int
  balanceAfter : Int
  reference : String
deriving DecidableEq, Repr

/-- The database state touched by the job and wallet services:
jobs, escrow rows (keyed by job id), wallet balances (the
`users.wallet_balance` column keyed by user id), worker rows and the
transaction log. -/
structure St where
  jobs : List (String × JobRec)
  escrows : List (String × EscrowRec)
  balances : List (String × Int)
  workers : List (String × WorkerRec)
  txns : List TxnRec
deriving DecidableEq, Repr

/-- The `{ success: boolean; error?: string }` result shape of the wallet
service methods. -/
structure OpResult where
  success : Bool
  error : Option String
deriving DecidableEq, Repr

/-- JavaScript truthiness for an optional string: both `undefined` and the
empty string are falsy. -/
def optStrTruthy : Option String → Bool
  | some s => s ≠ ""
  | none => false

/-! ### WalletService (src/features/payments/wallet.ts)

`db.transaction` rolls every write back when the callback throws, so each
method body is modelled as an `Except` computation producing the next
state; the wrapper returns the original state untouched on error.  The
Stripe transfer call is an external collaborator, taken as the parameter
`transfer : destination → amount → Except error transferId` (the
conversion of the amount to Stripe cents happens inside that call). -/

/-- Transaction body of `WalletService.releaseEscrowToWorker`.  The audit
transaction row is appended only when the job row exists, exactly as in
the source. -/
def releaseTx (transfer : String → Int → Except String String) (now : Nat)
    (st : St) (jobId workerId : String) : Except String St :=
  match alookup st.escrows jobId with
  | none => .error "Escrow record not found"
  | some esc =>
    if esc.status = .locked then
      match alookup st.workers workerId with
      | none => .error "Worker not found or Stripe account not connected"
      | some w =>
        if optStrTruthy w.stripeAccountId then
          match transfer (w.stripeAccountId.getD "") esc.workerPayout with
          | .error e => .error e
          | .ok tid =>
            let escrows1 := aupdate st.escrows jobId (fun e =>
              { e with status := .released, stripeTransferId := some tid,
                       releasedAt := some now })
            match alookup st.jobs jobId with
            | some job =>
              .ok { st with escrows := escrows1,
                            txns := st.txns ++
                              [⟨job.userId, "payout", esc.workerPayout, 0, jobId⟩] }
            | none =>
              .ok { st with escrows := escrows1 }
        else
          .error "Worker not found or Stripe account not connected"
    else
      .error ("Escrow already " ++ esc.status.str)

/-- `WalletService.releaseEscrowToWorker`: release escrow funds to the
worker on job approval. -/
def releaseEscrowToWorker (transfer : String → Int → Except String String)
    (now : Nat) (st : St) (jobId workerId : String) : OpResult × St :=
  match releaseTx transfer now st jobId workerId with
  | .ok st1 => (⟨true, none⟩, st1)
  | .error e => (⟨false, some e⟩, st)

/-- Transaction body of `WalletService.refundEscrowToWallet`.  A missing
user row makes the transaction throw (the source dereferences the
returned row), modelled as an explicit error. -/
def refundTx (now : Nat) (st : St) (jobId : String) : Except String St :=
  match alookup st.escrows jobId with
  | none => .error "Escrow record not found"
  | some esc =>
    if esc.status = .locked then
      match alookup st.jobs jobId with
      | none => .error "Job not found"
      | some job =>
        match alookup st.balances job.userId with
        | none => .error "User not found"
        | some bal =>
          .ok { st with
            balances := aupdate st.balances job.userId (fun b => b + esc.amount),
            escrows := aupdate st.escrows jobId (fun e =>
              { e with status := .refunded, releasedAt := some now }),
            txns := st.txns ++
              [⟨job.userId, "refund", esc.amount, bal + esc.amount, jobId⟩] }
    else
      .error ("Escrow already " ++ esc.status.str)

/-- `WalletService.refundEscrowToWallet`: refund escrowed funds to the
wallet of the requester on rejection or cancellation. -/
def refundEscrowToWallet (now : Nat) (st : St) (jobId : String) :
    OpResult × St :=
  match refundTx now st jobId with
  | .ok st1 => (⟨true, none⟩, st1)
  | .error e => (⟨false, some e⟩, st)

/-! ### JobService (src/features/jobs/service.ts)

The service methods throw plain errors, modelled as `Except String JobRec`
for the returned job; unlike the wallet methods they do not run inside a
database transaction, so writes performed before a later throw stay
committed: each method returns the state as left behind.  `sanitizeText`
(DOMPurify, external) and `workerService.updateReputation` (not under
src/) are function parameters. -/

structure DeliverInput where
  jobId : String
  deliverableText : Option String
  deliverableUrl : Option String
  deliverableFiles : Option (List (String × String))
deriving DecidableEq, Repr

/-- `JobService.deliverJob`.  If the job is already delivered, approved or
rejected the existing row is returned unchanged; otherwise the job must be
posted or in progress.  The drizzle `set` call skips `undefined` columns,
so an absent url or file map keeps the stored value, while the text column
is written explicitly (`null` when the input text is falsy). -/
def deliverJob (sanitize : String → String) (now : Nat) (st : St)
    (input : DeliverInput) : Except String JobRec × St :=
  match alookup st.jobs input.jobId with
  | none => (.error "Job not found", st)
  | some job =>
    if job.status = .delivered ∨ job.status = .approved ∨ job.status = .rejected then
      (.ok job, st)
    else if job.status ≠ .in_progress ∧ job.status ≠ .posted then
      (.error ("Cannot deliver job in " ++ job.status.str ++ " status"), st)
    else
      let sanitizedText : Option String :=
        match input.deliverableText with
        | some t => if t = "" then none else some (sanitize t)
        | none => none
      let job1 := { job with
        status := .delivered,
        deliverableText := sanitizedText,
        deliverableUrl := input.deliverableUrl.orElse (fun _ => job.deliverableUrl),
        deliverableFiles := input.deliverableFiles.orElse (fun _ => job.deliverableFiles),
        deliveredAt := some now }
      (.ok job1, { st with jobs := aupdate st.jobs input.jobId (fun _ => job1) })

/-- `JobService.approveJob`.  The job row is updated to `approved` first;
the escrow release runs afterwards and outside any transaction, so a
release failure throws while the job update stays committed. -/
def approveJob (transfer : String → Int → Except String String)
    (updRep : String → Int → List (String × WorkerRec) → List (String × WorkerRec))
    (sanitize : String → String) (now : Nat) (st : St)
    (jobId userId : String) (rating : Int) (feedback : Option String) :
    Except String JobRec × St :=
  match alookup st.jobs jobId with
  | none => (.error "Job not found", st)
  | some job =>
    if job.userId ≠ userId then
      (.error "Unauthorized: You do not own this job", st)
    else if job.status ≠ .delivered then
      (.error ("Cannot approve job in " ++ job.status.str ++ " status"), st)
    else if rating < 1 ∨ rating > 5 then
      (.error "Rating must be between 1 and 5", st)
    else
      let job1 := { job with
        status := .approved,
        rating := some rating,
        feedback :=
          match feedback with
          | some f => if f = "" then none else some (sanitize f)
          | none => none,
        completedAt := some now }
      let st1 := { st with jobs := aupdate st.jobs jobId (fun _ => job1) }
      if job.jtype = .worker ∧ optStrTruthy job.workerId then
        let wid := job.workerId.getD ""
        match releaseEscrowToWorker transfer now st1 jobId wid with
        | (⟨true, _⟩, st2) =>
          (.ok job1, { st2 with workers := updRep wid rating st2.workers })
        | (⟨false, e⟩, _) =>
          (.error ("Failed to release payment: " ++ e.getD "undefined"), st1)
      else
        (.ok job1, st1)

/-- `JobService.cancelJob`.  Only approved and rejected jobs are blocked;
on the cancel path the job row is updated before the refund, and a refund
failure throws with the job update left committed. -/
def cancelJob (now : Nat) (st : St) (jobId reason : String) :
    Except String JobRec × St :=
  match alookup st.jobs jobId with
  | none => (.error "Job not found", st)
  | some job =>
    if job.status = .approved ∨ job.status = .rejected then
      (.error "Cannot cancel completed job", st)
    else
      let job1 := { job with
        status := .cancelled,
        feedback := some reason,
        completedAt := some now }
      let st1 := { st with jobs := aupdate st.jobs jobId (fun _ => job1) }
      match refundEscrowToWallet now st1 jobId with
      | (⟨true, _⟩, st2) => (.ok job1, st2)
      | (⟨false, e⟩, _) =>
        (.error ("Failed to refund: " ++ e.getD "undefined"), st1)

/-! ### Webhook crypto (src/lib/security/webhook-crypto.ts)

The HMAC-SHA256 primitive comes from node:crypto, outside this
repository; it is modelled as an abstract parameter
`hmac : secret → content → hexDigest`.  The facts the source relies on
(the hex digest of SHA-256 is 64 lowercase hex characters) enter the
theorems as explicit hypotheses on that parameter.  `Date.now()` is the
explicit parameter `now` (unix milliseconds); the float division
`(now - requestTime) / 1000` compared against `maxAgeSeconds` and `-30`
is modelled by the equivalent exact integer comparisons scaled by 1000. -/

/-- Characters treated as whitespace by `parseInt`. -/
def jsWhitespace (c : Char) : Bool :=
  c = ' ' ∨ c = '\t' ∨ c = '\n' ∨ c = '\r'

/-- `parseInt(s, 10)`: skip leading whitespace, optional sign, then the
longest digit prefix; `NaN` (here `none`) when no digit follows. -/
def parseIntJS (s : String) : Option Int :=
  let cs := s.toList.dropWhile jsWhitespace
  let signAndRest : Bool × List Char :=
    match cs with
    | '-' :: rest => (true, rest)
    | '+' :: rest => (false, rest)
    | _ => (false, cs)
  let digits := signAndRest.2.takeWhile (fun c => '0' ≤ c ∧ c ≤ '9')
  if digits = [] then none
  else
    let n : Nat := digits.foldl (fun acc c => 10 * acc + (c.toNat - '0'.toNat)) 0
    some (if signAndRest.1 then -(n : Int) else (n : Int))

/-- Value of a hex digit, matching both the regex class `[0-9a-f]i` and
what `Buffer.from(-, hex)` accepts. -/
def hexNibble (c : Char) : Option Nat :=
  if '0' ≤ c ∧ c ≤ '9' then some (c.toNat - '0'.toNat)
  else if 'a' ≤ c ∧ c ≤ 'f' then some (c.toNat - 'a'.toNat + 10)
  else if 'A' ≤ c ∧ c ≤ 'F' then some (c.toNat - 'A'.toNat + 10)
  else none

def isHexDigit (c : Char) : Bool := (hexNibble c).isSome

/-- `Buffer.from(s, hex)`: decode pairs of hex digits into bytes,
stopping at the first invalid pair or lone trailing digit. -/
def hexDecodeL : List Char → List Nat
  | c1 :: c2 :: rest =>
    match hexNibble c1, hexNibble c2 with
    | some h, some l => (16 * h + l) :: hexDecodeL rest
    | _, _ => []
  | _ => []

def hexDecode (s : String) : List Nat := hexDecodeL s.toList

/-- 64 hex characters: the shape check the source performs on signatures
(`length === 64` plus the regex), and the shape of a SHA-256 hex digest. -/
def isHex64 (s : String) : Bool :=
  s.length == 64 && s.toList.all isHexDigit

/-- The `{ valid: boolean; error?: string }` result object. -/
structure VerifyResult where
  valid : Bool
  error : Option String
deriving DecidableEq, Repr

/-- `signWebhookWithTimestamp`: HMAC over `timestamp + "." + payload`. -/
def signWebhookWithTimestamp (hmac : String → String → String)
    (payload timestamp secret : String) : String :=
  hmac secret (timestamp ++ "." ++ payload)

/-- `verifyWebhookWithTimestamp`.  The first guard `!signature ||
signature.length !== 64` is the length test alone (the empty string has
length 0).  `crypto.timingSafeEqual` throws exactly when the two decoded
buffers have different lengths; that exception is caught and turned into
the `Signature verification failed` result. -/
def verifyWebhookWithTimestamp (hmac : String → String → String) (now : Int)
    (payload signature timestamp secret : String) (maxAgeSeconds : Int) :
    VerifyResult :=
  if signature.length ≠ 64 then
    ⟨false, some "Invalid signature format"⟩
  else if ¬ signature.toList.all isHexDigit then
    ⟨false, some "Signature must be 64 hex characters"⟩
  else
    match parseIntJS timestamp with
    | none => ⟨false, some "Invalid timestamp format"⟩
    | some t =>
      if now - t > 1000 * maxAgeSeconds then
        ⟨false, some "Webhook timestamp too old (possible replay attack)"⟩
      else if now - t < -30000 then
        ⟨false, some "Webhook timestamp is in the future"⟩
      else
        let expected := signWebhookWithTimestamp hmac payload timestamp secret
        if (hexDecode signature).length ≠ (hexDecode expected).length then
          ⟨false, some "Signature verification failed"⟩
        else if hexDecode signature = hexDecode expected then
          ⟨true, none⟩
        else
          ⟨false, some "Invalid signature"⟩

/-! ### Escrow settlement lemmas -/

theorem releaseTx_ok_was_locked {transfer : String → Int → Except String String}
    {now : Nat} {st st1 : St} {jobId workerId : String}
    (h : releaseTx transfer now st jobId workerId = .ok st1) :
    ∃ esc, alookup st.escrows jobId = some esc ∧ esc.status = .locked := by
  cases hal : alookup st.escrows jobId with
  | none => simp [releaseTx, hal] at h
  | some esc =>
    by_cases hs : esc.status = .locked
    · exact ⟨esc, rfl, hs⟩
    · simp [releaseTx, hal, hs] at h

theorem releaseTx_ok_after {transfer : String → Int → Except String String}
    {now : Nat} {st st1 : St} {jobId workerId : String}
    (h : releaseTx transfer now st jobId workerId = .ok st1) :
    (alookup st1.escrows jobId).map EscrowRec.status = some .released
    ∧ st1.balances = st.balances ∧ st1.jobs = st.jobs := by
  cases hal : alookup st.escrows jobId with
  | none => simp [releaseTx, hal] at h
  | some esc =>
    by_cases hs : esc.status = .locked
    · cases haw : alookup st.workers workerId with
      | none => simp [releaseTx, hal, hs, haw] at h
      | some w =>
        by_cases ht : optStrTruthy w.stripeAccountId
        · cases htr : transfer (w.stripeAccountId.getD "") esc.workerPayout with
          | error e => simp [releaseTx, hal, hs, haw, ht, htr] at h
          | ok tid =>
            cases haj : alookup st.jobs jobId with
            | some job =>
              simp [releaseTx, hal, hs, haw, ht, htr, haj] at h
              subst h
              refine ⟨?_, rfl, rfl⟩
              simp [alookup_aupdate_self, hal]
            | none =>
              simp [releaseTx, hal, hs, haw, ht, htr, haj] at h
              subst h
              refine ⟨?_, rfl, rfl⟩
              simp [alookup_aupdate_self, hal]
        · simp [releaseTx, hal, hs, haw, ht] at h
    · simp [releaseTx, hal, hs] at h

theorem refundTx_ok_was_locked {now : Nat} {st st1 : St} {jobId : String}
    (h : refundTx now st jobId = .ok st1) :
    ∃ esc, alookup st.escrows jobId = some esc ∧ esc.status = .locked := by
  cases hal : alookup st.escrows jobId with
  | none => simp [refundTx, hal] at h
  | some esc =>
    by_cases hs : esc.status = .locked
    · exact ⟨esc, rfl, hs⟩
    · simp [refundTx, hal, hs] at h

theorem refundTx_ok_after {now : Nat} {st st1 : St} {jobId : String}
    (h : refundTx now st jobId = .ok st1) :
    (alookup st1.escrows jobId).map EscrowRec.status = some .refunded
    ∧ st1.jobs = st.jobs := by
  cases hal : alookup st.escrows jobId with
  | none => simp [refundTx, hal] at h
  | some esc =>
    by_cases hs : esc.status = .locked
    · cases haj : alookup st.jobs jobId with
      | none => simp [refundTx, hal, hs, haj] at h
      | some job =>
        cases hab : alookup st.balances job.userId with
        | none => simp [refundTx, hal, hs, haj, hab] at h
        | some bal =>
          simp [refundTx, hal, hs, haj, hab] at h
          subst h
          refine ⟨?_, rfl⟩
          simp [alookup_aupdate_self, hal]
    · simp [refundTx, hal, hs] at h

/-- Both settlement operations, applied to an escrow that is no longer
locked, fail with an error naming the stored status and leave the state
untouched. -/
theorem settle_again_errors {st : St} {jobId : String} (esc : EscrowRec)
    (hal : alookup st.escrows jobId = some esc) (hs : esc.status ≠ .locked)
    (transfer : String → Int → Except String String) (now : Nat)
    (workerId : String) :
    releaseEscrowToWorker transfer now st jobId workerId
      = (⟨false, some ("Escrow already " ++ esc.status.str)⟩, st)
    ∧ refundEscrowToWallet now st jobId
      = (⟨false, some ("Escrow already " ++ esc.status.str)⟩, st) := by
  constructor
  · simp [releaseEscrowToWorker, releaseTx, hal, hs]
  · simp [refundEscrowToWallet, refundTx, hal, hs]

/-- C1.  Exactly-once escrow settlement: a successful
`releaseEscrowToWorker` or `refundEscrowToWallet` call finds the escrow
of the job in status `locked`; afterwards the escrow carries a
non-`locked` status, and a second call to either operation returns the
error `Escrow already <status>` naming that status and returns the state
unchanged, so the wallet balance and the worker payout are moved by at
most one of the calls. -/
theorem escrow_settlement_exactly_once
    (transfer : String → Int → Except String String) (now now2 : Nat)
    (st st1 : St) (jobId workerId workerId2 : String) (r : OpResult)
    (hfirst : releaseEscrowToWorker transfer now st jobId workerId = (r, st1)
              ∨ refundEscrowToWallet now st jobId = (r, st1))
    (hsucc : r.success = true) :
    (alookup st.escrows jobId).map EscrowRec.status = some .locked
    ∧ ∃ s : EscrowStatus, s ≠ .locked
        ∧ (alookup st1.escrows jobId).map EscrowRec.status = some s
        ∧ releaseEscrowToWorker transfer now2 st1 jobId workerId2
            = (⟨false, some ("Escrow already " ++ s.str)⟩, st1)
        ∧ refundEscrowToWallet now2 st1 jobId
            = (⟨false, some ("Escrow already " ++ s.str)⟩, st1) := by
  cases hfirst with
  | inl hrel =>
    have hok : releaseTx transfer now st jobId workerId = .ok st1 := by
      unfold releaseEscrowToWorker at hrel
      cases hq : releaseTx transfer now st jobId workerId with
      | ok s2 =>
        rw [hq] at hrel
        injection hrel with h1 h2
        rw [← h2]
      | error e =>
        rw [hq] at hrel
        injection hrel with h1 h2
        rw [← h1] at hsucc
        simp at hsucc
    obtain ⟨esc, hal, hlock⟩ := releaseTx_ok_was_locked hok
    obtain ⟨hafter, _, _⟩ := releaseTx_ok_after hok
    rw [Option.map_eq_some'] at hafter
    obtain ⟨esc1, hal1, hst1⟩ := hafter
    refine ⟨by simp [hal, hlock], .released, by simp, ?_, ?_, ?_⟩
    · simp [hal1, hst1]
    · have := (settle_again_errors esc1 hal1 (by simp [hst1]) transfer now2 workerId2).1
      rwa [hst1] at this
    · have := (settle_again_errors esc1 hal1 (by simp [hst1]) transfer now2 workerId2).2
      rwa [hst1] at this
  | inr href =>
    have hok : refundTx now st jobId = .ok st1 := by
      unfold refundEscrowToWallet at href
      cases hq : refundTx now st jobId with
      | ok s2 =>
        rw [hq] at href
        injection href with h1 h2
        rw [← h2]
      | error e =>
        rw [hq] at href
        injection href with h1 h2
        rw [← h1] at hsucc
        simp at hsucc
    obtain ⟨esc, hal, hlock⟩ := refundTx_ok_was_locked hok
    obtain ⟨hafter, _⟩ := refundTx_ok_after hok
    rw [Option.map_eq_some'] at hafter
    obtain ⟨esc1, hal1, hst1⟩ := hafter
    refine ⟨by simp [hal, hlock], .refunded, by simp, ?_, ?_, ?_⟩
    · simp [hal1, hst1]
    · have := (settle_again_errors esc1 hal1 (by simp [hst1]) transfer now2 workerId2).1
      rwa [hst1] at this
    · have := (settle_again_errors esc1 hal1 (by simp [hst1]) transfer now2 workerId2).2
      rwa [hst1] at this

/-- A wallet-service call that reported success ran its transaction body
to completion. -/
theorem release_success_tx {transfer : String → Int → Except String String}
    {now : Nat} {st st1 : St} {jobId workerId : String} {r : OpResult}
    (h : releaseEscrowToWorker transfer now st jobId workerId = (r, st1))
    (hs : r.success = true) :
    releaseTx transfer now st jobId workerId = .ok st1 := by
  unfold releaseEscrowToWorker at h
  cases hq : releaseTx transfer now st jobId workerId with
  | ok s2 =>
    rw [hq] at h
    injection h with h1 h2
    rw [← h2]
  | error e =>
    rw [hq] at h
    injection h with h1 h2
    rw [← h1] at hs
    simp at hs

theorem refund_success_tx {now : Nat} {st st1 : St} {jobId : String}
    {r : OpResult}
    (h : refundEscrowToWallet now st jobId = (r, st1))
    (hs : r.success = true) :
    refundTx now st jobId = .ok st1 := by
  unfold refundEscrowToWallet at h
  cases hq : refundTx now st jobId with
  | ok s2 =>
    rw [hq] at h
    injection h with h1 h2
    rw [← h2]
  | error e =>
    rw [hq] at h
    injection h with h1 h2
    rw [← h1] at hs
    simp at hs

/-! ### Fixtures: concrete rows used by witnesses and counterexamples -/

/-- A worker job with a 12 dollar budget, before any transition. -/
def baseJob : JobRec :=
  { userId := "u", jtype := .worker, skillId := none, workerId := some "w",
    task := "t", budget := 20, status := .posted, deliverableText := none,
    deliverableUrl := none, deliverableFiles := none, rating := none,
    feedback := none, deliveredAt := none, completedAt := none,
    timeoutAt := none }

/-- The escrow locked for `baseJob` at a 10 percent opening fee. -/
def baseEscrow : EscrowRec :=
  { amount := 20, platformFee := 2, workerPayout := 18,
    status := .locked, stripeTransferId := none, releasedAt := none }

/-- A Stripe transfer stub that always succeeds. -/
def transferOk : String → Int → Except String String := fun _ _ => .ok "tr_1"

/-- A reputation updater stub that changes nothing. -/
def updRepId : String → Int → List (String × WorkerRec) → List (String × WorkerRec) :=
  fun _ _ ws => ws

def stW1 : St :=
  { jobs := [("j", { baseJob with status := .delivered })],
    escrows := [("j", baseEscrow)], balances := [("u", 38)],
    workers := [("w", ⟨some "acct"⟩)], txns := [] }

def stW1after : St :=
  { jobs := [("j", { baseJob with status := .delivered })],
    escrows := [("j", { baseEscrow with
        status := .released,
        stripeTransferId := some "tr_1",
        releasedAt := some 5 })],
    balances := [("u", 38)], workers := [("w", ⟨some "acct"⟩)],
    txns := [⟨"u", "payout", 18, 0, "j"⟩] }

/-- Witness for C1: a concrete locked escrow satisfies the hypotheses of
`escrow_settlement_exactly_once` with a successful first release. -/
theorem escrow_settlement_exactly_once_witness :
    (alookup stW1.escrows "j").map EscrowRec.status = some .locked :=
  (escrow_settlement_exactly_once transferOk 5 6 stW1 stW1after "j" "w" "w"
    ⟨true, none⟩ (Or.inl (by decide)) rfl).1

/-- C3.  Delivery is idempotent: when the stored job is already
`delivered`, `approved` or `rejected`, `deliverJob` returns the stored
row and leaves the state (stored deliverable included) unchanged, for any
input payload with that job id; when the stored job is `cancelled` (the
only status outside `posted`, `in_progress` and the three above),
`deliverJob` fails with an error naming the status. -/
theorem deliverJob_idempotent (sanitize : String → String) (now : Nat)
    (st : St) (input : DeliverInput) (job : JobRec)
    (hal : alookup st.jobs input.jobId = some job) :
    ((job.status = .delivered ∨ job.status = .approved ∨ job.status = .rejected) →
       deliverJob sanitize now st input = (.ok job, st))
    ∧ (job.status = .cancelled →
       deliverJob sanitize now st input
         = (.error "Cannot deliver job in cancelled status", st)) := by
  constructor
  · intro h
    simp [deliverJob, hal, h]
  · intro h
    have hterm : ¬ (job.status = .delivered ∨ job.status = .approved ∨
        job.status = .rejected) := by
      rw [h]; simp
    have hother : job.status ≠ .in_progress ∧ job.status ≠ .posted := by
      rw [h]; simp
    simp [deliverJob, hal, hterm, hother, h, JobStatus.str]

def jobW3 : JobRec :=
  { baseJob with status := .delivered, deliverableText := some "out" }

def stW3 : St :=
  { jobs := [("j", jobW3)], escrows := [], balances := [],
    workers := [], txns := [] }

def inW3 : DeliverInput :=
  { jobId := "j", deliverableText := some "different",
    deliverableUrl := some "http://other", deliverableFiles := none }

/-- Witness for C3: redelivering a delivered job with a different payload
returns the stored row and changes nothing. -/
theorem deliverJob_idempotent_witness :
    deliverJob id 7 stW3 inW3 = (.ok jobW3, stW3) :=
  (deliverJob_idempotent id 7 stW3 inW3 jobW3 (by decide)).1 (by decide)

/-- Decidable equality for `Except` results, used to evaluate concrete
service calls in witnesses. -/
instance {e a : Type} [DecidableEq e] [DecidableEq a] : DecidableEq (Except e a)
  | .ok x, .ok y =>
    if h : x = y then isTrue (by rw [h]) else isFalse (by simp [h])
  | .ok _, .error _ => isFalse (by simp)
  | .error _, .ok _ => isFalse (by simp)
  | .error x, .error y =>
    if h : x = y then isTrue (by rw [h]) else isFalse (by simp [h])

/-! ### C4 fixtures -/

def jobW4 : JobRec := { baseJob with status := .delivered }

def stW4 : St :=
  { jobs := [("j", jobW4)], escrows := [("j", baseEscrow)],
    balances := [("u", 30)], workers := [("w", ⟨some "acct"⟩)], txns := [] }

def jobW4c : JobRec :=
  { jobW4 with
    status := .cancelled, feedback := some "user cancelled",
    completedAt := some 9 }

def stW4after : St :=
  { jobs := [("j", jobW4c)],
    escrows := [("j", { baseEscrow with
        status := .refunded, releasedAt := some 9 })],
    balances := [("u", 50)], workers := [("w", ⟨some "acct"⟩)],
    txns := [⟨"u", "refund", 20, 50, "j"⟩] }

/-- C4 counterexample: `cancelJob` called on a job whose status is
`delivered` succeeds, transitions it to `cancelled` and refunds the
escrow, instead of failing without a change. -/
theorem cancelJob_cancels_delivered_job_cex :
    jobW4.status = .delivered
    ∧ cancelJob 9 stW4 "j" "user cancelled" = (.ok jobW4c, stW4after)
    ∧ (alookup stW4after.escrows "j").map EscrowRec.status = some .refunded := by
  decide

/-- C4 amended.  `cancelJob` fails without touching the state exactly for
jobs already `approved` or `rejected` (a `delivered` job can still be
cancelled); every successful call leaves the job `cancelled` in the store
and its escrow `refunded`. -/
theorem cancelJob_guard_and_refund (now : Nat) (st st1 : St)
    (jobId reason : String) (job j1 : JobRec)
    (hal : alookup st.jobs jobId = some job) :
    ((job.status = .approved ∨ job.status = .rejected) →
       cancelJob now st jobId reason = (.error "Cannot cancel completed job", st))
    ∧ (cancelJob now st jobId reason = (.ok j1, st1) →
       j1.status = .cancelled
       ∧ alookup st1.jobs jobId = some j1
       ∧ (alookup st1.escrows jobId).map EscrowRec.status = some .refunded
       ∧ job.status ≠ .approved ∧ job.status ≠ .rejected) := by
  constructor
  · intro hg
    simp [cancelJob, hal, hg]
  · intro h
    by_cases hg : job.status = .approved ∨ job.status = .rejected
    · simp [cancelJob, hal, hg] at h
    · unfold cancelJob at h
      rw [hal] at h
      dsimp only at h
      rw [if_neg hg] at h
      rcases hre : refundEscrowToWallet now
          { st with jobs := aupdate st.jobs jobId (fun _ =>
              { job with
                status := .cancelled, feedback := some reason,
                completedAt := some now }) } jobId with ⟨⟨rsucc, rerr⟩, s2⟩
      rw [hre] at h
      cases rsucc with
      | true =>
        dsimp only at h
        injection h with ha hb
        injection ha with ha
        have htx := refund_success_tx hre rfl
        obtain ⟨hesc, hjobs⟩ := refundTx_ok_after htx
        subst hb
        push_neg at hg
        refine ⟨by rw [← ha], ?_, hesc, hg.1, hg.2⟩
        rw [hjobs]
        simp only [alookup_aupdate_self, hal, Option.map_some']
        rw [← ha]
      | false =>
        dsimp only at h
        exact absurd h (by simp)

/-- Witness for the amended C4 theorem: the delivered job of the
counterexample state satisfies its hypotheses on the success branch. -/
theorem cancelJob_guard_and_refund_witness :
    jobW4c.status = .cancelled
    ∧ alookup stW4after.jobs "j" = some jobW4c
    ∧ (alookup stW4after.escrows "j").map EscrowRec.status = some .refunded
    ∧ jobW4.status ≠ .approved ∧ jobW4.status ≠ .rejected :=
  (cancelJob_guard_and_refund 9 stW4 stW4after "j" "user cancelled" jobW4 jobW4c
    (by decide)).2 (by decide)

/-! ### C2: approve is not atomic with the payout -/

def jobW2 : JobRec := { baseJob with status := .delivered }

/-- A delivered worker job whose worker has no connected Stripe payout
account, so the escrow release must fail. -/
def stW2 : St :=
  { jobs := [("j", jobW2)], escrows := [("j", baseEscrow)],
    balances := [("u", 30)], workers := [("w", ⟨none⟩)], txns := [] }

/-- C2.  When the escrow release fails inside `approveJob` the error is
surfaced to the caller, but the job row was already updated outside any
transaction: the store is left with the job `approved` while its escrow
is still `locked`, the partial transition the spec rules out. -/
theorem approveJob_commits_job_before_failed_release :
    (approveJob transferOk updRepId id 9 stW2 "j" "u" 5 none).1
      = .error "Failed to release payment: Worker not found or Stripe account not connected"
    ∧ (alookup (approveJob transferOk updRepId id 9 stW2 "j" "u" 5 none).2.jobs "j").map
        JobRec.status = some .approved
    ∧ (alookup (approveJob transferOk updRepId id 9 stW2 "j" "u" 5 none).2.escrows "j").map
        EscrowRec.status = some .locked := by
  decide

/-! ### C9: approving a skill job touches only the job row -/

/-- C9.  For a job of type `skill`, a successful `approveJob` writes the
approved job row (status, rating, sanitized feedback, completion time)
and nothing else: escrow rows, wallet balances, worker rows and the
transaction log are exactly those of the input state, so the escrow
locked for the job keeps its status and no money moves. -/
theorem approveJob_skill_updates_only_job_row
    (transfer : String → Int → Except String String)
    (updRep : String → Int → List (String × WorkerRec) → List (String × WorkerRec))
    (sanitize : String → String) (now : Nat) (st : St)
    (jobId userId : String) (rating : Int) (feedback : Option String)
    (job : JobRec)
    (hal : alookup st.jobs jobId = some job)
    (htype : job.jtype = .skill)
    (howner : job.userId = userId)
    (hstat : job.status = .delivered)
    (hr1 : 1 ≤ rating) (hr5 : rating ≤ 5) :
    approveJob transfer updRep sanitize now st jobId userId rating feedback
      = (.ok { job with
                status := .approved, rating := some rating,
                feedback := match feedback with
                  | some f => if f = "" then none else some (sanitize f)
                  | none => none,
                completedAt := some now },
         { st with jobs := aupdate st.jobs jobId (fun _ =>
             { job with
               status := .approved, rating := some rating,
               feedback := match feedback with
                 | some f => if f = "" then none else some (sanitize f)
                 | none => none,
               completedAt := some now }) })
    ∧ (approveJob transfer updRep sanitize now st jobId userId rating feedback).2.escrows
        = st.escrows
    ∧ (approveJob transfer updRep sanitize now st jobId userId rating feedback).2.balances
        = st.balances
    ∧ (approveJob transfer updRep sanitize now st jobId userId rating feedback).2.workers
        = st.workers
    ∧ (approveJob transfer updRep sanitize now st jobId userId rating feedback).2.txns
        = st.txns := by
  have hguard : ¬ (rating < 1 ∨ rating > 5) := by omega
  have hw : ¬ (job.jtype = .worker ∧ optStrTruthy job.workerId = true) := by
    rw [htype]; simp
  have hmain : approveJob transfer updRep sanitize now st jobId userId rating feedback
      = (.ok { job with
                status := .approved, rating := some rating,
                feedback := match feedback with
                  | some f => if f = "" then none else some (sanitize f)
                  | none => none,
                completedAt := some now },
         { st with jobs := aupdate st.jobs jobId (fun _ =>
             { job with
               status := .approved, rating := some rating,
               feedback := match feedback with
                 | some f => if f = "" then none else some (sanitize f)
                 | none => none,
               completedAt := some now }) }) := by
    simp [approveJob, hal, howner, hstat, hguard, hw]
  exact ⟨hmain, by rw [hmain], by rw [hmain], by rw [hmain], by rw [hmain]⟩

def jobW9 : JobRec :=
  { baseJob with
    jtype := .skill, skillId := some "s1", workerId := none,
    status := .delivered }

def stW9 : St :=
  { jobs := [("j", jobW9)], escrows := [("j", baseEscrow)],
    balances := [("u", 30)], workers := [], txns := [] }

/-- Witness for C9: approving a concrete delivered skill job leaves
escrows, balances, workers and the transaction log untouched. -/
theorem approveJob_skill_updates_only_job_row_witness :
    (approveJob transferOk updRepId id 11 stW9 "j" "u" 4 (some "nice")).2.escrows
      = stW9.escrows
    ∧ (approveJob transferOk updRepId id 11 stW9 "j" "u" 4 (some "nice")).2.balances
      = stW9.balances
    ∧ (approveJob transferOk updRepId id 11 stW9 "j" "u" 4 (some "nice")).2.workers
      = stW9.workers
    ∧ (approveJob transferOk updRepId id 11 stW9 "j" "u" 4 (some "nice")).2.txns
      = stW9.txns :=
  (approveJob_skill_updates_only_job_row transferOk updRepId id 11 stW9 "j" "u" 4
    (some "nice") jobW9 (by decide) (by decide) (by decide) (by decide)
    (by decide) (by decide)).2

/-! ### Webhook crypto lemmas -/

/-- Decoding a string of hex digits yields one byte per two characters. -/
theorem hexDecodeL_length : ∀ cs : List Char, cs.all isHexDigit = true →
    (hexDecodeL cs).length = cs.length / 2
  | [], _ => by simp [hexDecodeL]
  | [c], _ => by simp [hexDecodeL]
  | c1 :: c2 :: rest, h => by
    simp only [List.all_cons, Bool.and_eq_true] at h
    obtain ⟨h1, h2, h3⟩ := h
    rw [isHexDigit] at h1 h2
    obtain ⟨n1, hn1⟩ := Option.isSome_iff_exists.mp h1
    obtain ⟨n2, hn2⟩ := Option.isSome_iff_exists.mp h2
    have ih := hexDecodeL_length rest h3
    simp only [hexDecodeL, hn1, hn2, List.length_cons, ih]
    omega

/-- A verification that reports `valid` compared equal decoded byte
buffers, i.e. the presented signature decodes to the bytes of the
recomputed HMAC over `timestamp + "." + payload`. -/
theorem verify_valid_hexDecode_eq {hmac : String → String → String}
    {now : Int} {payload sig ts secret : String} {maxAgeSeconds : Int}
    (h : (verifyWebhookWithTimestamp hmac now payload sig ts secret
            maxAgeSeconds).valid = true) :
    hexDecode sig = hexDecode (hmac secret (ts ++ "." ++ payload)) := by
  unfold verifyWebhookWithTimestamp signWebhookWithTimestamp at h
  dsimp only at h
  split at h
  next => simp at h
  next =>
    split at h
    next => simp at h
    next =>
      split at h
      next => simp at h
      next t ht =>
        split at h
        next => simp at h
        next =>
          split at h
          next => simp at h
          next =>
            split at h
            next => simp at h
            next =>
              split at h
              next hcmp => exact hcmp
              next => simp at h

/-- C5.  Signature round-trip: verifying a signature freshly produced by
`signWebhookWithTimestamp` over the same payload, timestamp and secret
succeeds whenever the timestamp parses and is neither older than
`maxAgeSeconds` nor more than 30 seconds in the future at verification
time (the digest-shape fact that HMAC-SHA256 hex output is 64 hex
characters enters as the hypothesis on the external primitive). -/
theorem verify_sign_round_trip
    (hmac : String → String → String) (now : Int)
    (payload timestamp secret : String) (maxAgeSeconds t : Int)
    (hts : parseIntJS timestamp = some t)
    (hold : now - t ≤ 1000 * maxAgeSeconds)
    (hfut : -30000 ≤ now - t)
    (hhex : isHex64 (hmac secret (timestamp ++ "." ++ payload)) = true) :
    verifyWebhookWithTimestamp hmac now payload
      (signWebhookWithTimestamp hmac payload timestamp secret)
      timestamp secret maxAgeSeconds = ⟨true, none⟩ := by
  rw [isHex64, Bool.and_eq_true, beq_iff_eq] at hhex
  unfold verifyWebhookWithTimestamp signWebhookWithTimestamp
  rw [if_neg (by simp [hhex.1])]
  rw [if_neg (not_not_intro hhex.2)]
  rw [hts]
  dsimp only
  rw [if_neg (not_lt.mpr hold), if_neg (not_lt.mpr hfut)]
  simp

def hmacZeros : String → String → String := fun _ _ =>
  "0000000000000000000000000000000000000000000000000000000000000000"

/-- Witness for C5 at a concrete payload, timestamp, secret and clock. -/
theorem verify_sign_round_trip_witness :
    verifyWebhookWithTimestamp hmacZeros 1000 "p"
      (signWebhookWithTimestamp hmacZeros "p" "900" "s") "900" "s" 300
      = ⟨true, none⟩ :=
  verify_sign_round_trip hmacZeros 1000 "p" "900" "s" 300 900
    (by decide) (by decide) (by decide) (by decide)

/-- C6.  Replay rejection via timestamp binding: the signed content
`timestamp + "." + payload` differs whenever the timestamp differs, and a
signature produced for timestamp `tsA` presented together with any other
timestamp `tsB` (or a changed payload or secret) passes verification only
if the recomputed HMAC decodes to the very same bytes — whenever the HMAC
distinguishes the two signed contents, verification fails. -/
theorem replay_with_changed_input_rejected
    (hmac : String → String → String) (now maxAgeSeconds : Int)
    (payload payload2 tsA tsB secret secret2 : String)
    (hne : tsA ≠ tsB) :
    tsA ++ "." ++ payload ≠ tsB ++ "." ++ payload
    ∧ (hexDecode (hmac secret2 (tsB ++ "." ++ payload2))
         ≠ hexDecode (signWebhookWithTimestamp hmac payload tsA secret) →
       (verifyWebhookWithTimestamp hmac now payload2
          (signWebhookWithTimestamp hmac payload tsA secret)
          tsB secret2 maxAgeSeconds).valid = false) := by
  constructor
  · intro heq
    apply hne
    have hd := congrArg String.data heq
    simp only [String.data_append, List.append_assoc] at hd
    have hdd := List.append_cancel_right hd
    exact String.ext hdd
  · intro hne2
    cases hv : (verifyWebhookWithTimestamp hmac now payload2
        (signWebhookWithTimestamp hmac payload tsA secret)
        tsB secret2 maxAgeSeconds).valid
    · rfl
    · exact absurd (verify_valid_hexDecode_eq hv).symm hne2

/-- An HMAC stub that distinguishes the two signed contents of the C6
witness and produces decodable hex of different bytes. -/
def hmacW6 : String → String → String := fun _ c =>
  if c = "2.p" then "ab" else "cd"

/-- Witness for C6: a signature made for timestamp 1 and replayed with
timestamp 2 fails verification. -/
theorem replay_with_changed_input_rejected_witness :
    (verifyWebhookWithTimestamp hmacW6 1000 "p"
       (signWebhookWithTimestamp hmacW6 "p" "1" "s") "2" "s" 300).valid
      = false :=
  (replay_with_changed_input_rejected hmacW6 1000 300 "p" "p" "1" "2" "s" "s"
    (by decide)).2 (by decide)

/-- C10.  `verifyWebhookWithTimestamp` is a total function into the
`{valid, error?}` result shape, and when the HMAC primitive returns 64
hex characters (as the SHA-256 hex digest always does) the caught
`timingSafeEqual` exception branch is unreachable: the format guards force
the presented signature to decode to exactly 32 bytes, the recomputed
digest also decodes to 32 bytes, so the buffer-length mismatch that makes
`timingSafeEqual` throw cannot occur and the result error is never
`Signature verification failed`. -/
theorem verify_total_catch_unreachable
    (hmac : String → String → String) (now : Int)
    (payload sig ts secret : String) (maxAgeSeconds : Int)
    (hhex : ∀ s c, isHex64 (hmac s c) = true) :
    (verifyWebhookWithTimestamp hmac now payload sig ts secret
       maxAgeSeconds).error ≠ some "Signature verification failed" := by
  unfold verifyWebhookWithTimestamp signWebhookWithTimestamp
  dsimp only
  split
  next => simp
  next hlen =>
    split
    next => simp
    next hall =>
      split
      next => simp
      next t ht =>
        split
        next => simp
        next =>
          split
          next => simp
          next =>
            push_neg at hlen hall
            have hh := hhex secret (ts ++ "." ++ payload)
            rw [isHex64, Bool.and_eq_true, beq_iff_eq] at hh
            have h1 : (hexDecode sig).length = 32 := by
              have hl64 : sig.toList.length = 64 := hlen
              rw [hexDecode, hexDecodeL_length sig.toList hall, hl64]
            have h2 : (hexDecode (hmac secret (ts ++ "." ++ payload))).length = 32 := by
              have hl64 : (hmac secret (ts ++ "." ++ payload)).toList.length = 64 := hh.1
              rw [hexDecode, hexDecodeL_length _ hh.2, hl64]
            rw [if_neg (by rw [h1, h2]; simp)]
            split
            next => simp
            next => simp

/-- Witness for C10 with a concrete 64-hex-digit HMAC stub. -/
theorem verify_total_catch_unreachable_witness :
    (verifyWebhookWithTimestamp hmacZeros 1000 "p" "bad" "900" "s" 300).error
      ≠ some "Signature verification failed" :=
  verify_total_catch_unreachable hmacZeros 1000 "p" "bad" "900" "s" 300
    (fun _ _ => rfl)

/-! ### Skill execution engine (src/mcp-server/src/skills/engine.ts)

The engine mutates one shared execution-state object and the real file
tree; both are modelled explicitly: the file tree as a finite map from
path to content, the dynamic properties of the state object as a map
from variable path to string value (`getNestedValue` walks a dotted path
through the nested state object; a flat map keyed by the full dotted
path has the same lookup behavior).  Node string and path primitives
are re-implemented on character lists. -/

/-- `s.split("/")`, keeping empty segments. -/
def splitSlashAux (cur : List Char) : List Char → List String
  | [] => [String.mk cur.reverse]
  | '/' :: rest => String.mk cur.reverse :: splitSlashAux [] rest
  | c :: rest => splitSlashAux (c :: cur) rest

def splitSlash (s : String) : List String := splitSlashAux [] s.toList

/-- JavaScript `String.prototype.startsWith`, the comparison used by
`validateFilePath`. -/
def strStartsWith (s pre : String) : Bool := List.isPrefixOf pre.toList s.toList

/-- POSIX normalization of an absolute path as `path.resolve` performs
it: drop empty and `.` segments, let `..` pop the previous segment (and
vanish at the root), rejoin from the root. -/
def normAbs (s : String) : String :=
  "/" ++ String.intercalate "/"
    ((splitSlash s).foldl (fun acc seg =>
      if seg = "" ∨ seg = "." then acc
      else if seg = ".." then acc.dropLast
      else acc ++ [seg]) [])

/-- `path.resolve(base, p)` for an absolute `base` (the engine always
passes its workspace root). -/
def pathResolve (base p : String) : String :=
  if strStartsWith p "/" then normAbs p else normAbs (base ++ "/" ++ p)

/-- `path.resolve(p)` for an already absolute `p`, the way
`validateFilePath` re-resolves the path and the workspace root. -/
def pathResolve1 (p : String) : String := normAbs p

mutual
/-- Scanner for the `${...}` template substitution of
`SkillEngine.resolveValue`: copy characters until a `${` opens a
variable reference. -/
def substAux (vars : List (String × String)) : List Char → List Char
  | [] => []
  | '$' :: '{' :: rest => substVar vars [] rest
  | c :: rest => c :: substAux vars rest

/-- Collect a variable path up to the closing brace; on a match replace
it by the value found in the running state, otherwise keep the original
text (exactly what the source replacement callback does for an unknown
reference, and what the regex does for an empty or unclosed one). -/
def substVar (vars : List (String × String)) (acc : List Char) : List Char → List Char
  | [] => '$' :: '{' :: acc.reverse
  | '}' :: rest =>
    if acc = [] then '$' :: '{' :: '}' :: substAux vars rest
    else
      match alookup vars (String.mk acc.reverse) with
      | some v => v.toList ++ substAux vars rest
      | none => '$' :: '{' :: (acc.reverse ++ '}' :: substAux vars rest)
  | c :: rest => substVar vars (c :: acc) rest
end

/-- `SkillEngine.resolveValue` on string templates. -/
def resolveValue (vars : List (String × String)) (template : String) : String :=
  String.mk (substAux vars template.toList)

/-- `SkillEngine.resolvePath`: template substitution, then resolution
against the workspace root. -/
def resolvePath (ws : String) (vars : List (String × String))
    (template : String) : String :=
  pathResolve ws (resolveValue vars template)

/-- `SkillEngine.validateFilePath`: re-resolve both the path and the
workspace root and require the former to start with the latter as a
string. -/
def validateFilePath (ws filePath : String) : Except String Unit :=
  if strStartsWith (pathResolve1 filePath) (pathResolve1 ws) then .ok ()
  else .error "File path outside workspace not allowed"

/-! #### File tree -/

abbrev FS := List (String × String)

def fsRead (fs : FS) (p : String) : Except String String :=
  match alookup fs p with
  | some c => .ok c
  | none => .error ("ENOENT: no such file or directory " ++ p)

def fsWrite (fs : FS) (p c : String) : FS := aset fs p c

/-- Drop every row with key `k`. -/
def aremove {α : Type} (l : List (String × α)) (k : String) : List (String × α) :=
  l.filter (fun p => p.1 ≠ k)

def fsUnlink (fs : FS) (p : String) : Except String FS :=
  match alookup fs p with
  | some _ => .ok (aremove fs p)
  | none => .error ("ENOENT: no such file or directory " ++ p)

/-! #### Steps and execution state -/

/-- One entry of `state.changes`. -/
structure ChangeRec where
  ctype : String
  path : String
  content : Option String
deriving DecidableEq, Repr

/-- The mutable execution state: the file tree, the dynamic variable map
(inputs, context and `save_as` outputs, keyed by dotted path), the change
log, and the original-to-backup map. -/
structure EngSt where
  fs : FS
  vars : List (String × String)
  changes : List ChangeRec
  backupMap : List (String × String)
deriving DecidableEq, Repr

/-- The closed step vocabulary of the `executeStep` switch.  `for_each`
carries its item array directly (the source resolves `step.items` and
requires an array; a string template that resolves to a string is
rejected there).  The AI-assisted kinds that only store a placeholder
string are collected under `gen`. -/
inductive Step where
  | read_file (path : String) (save_as : Option String)
  | write_file (path content : String)
  | update_file (path operation target content : String)
  | delete_file (path : String)
  | rename_file (src dst : String)
  | for_each (items : List String) (asVar : String) (body : List Step)
  | gen (kind : String) (save_as : String)
  | throw_error (message : Option String)
  | unknown (kind : String)

/-- JavaScript `content.replace(target, repl)` with a plain string
pattern: replace the first occurrence only; an empty pattern matches at
position zero.  The `$`-pattern expansion of the replacement string is
not modelled. -/
def replaceFirstAux (target repl : List Char) : List Char → List Char
  | [] => []
  | c :: rest =>
    if List.isPrefixOf target (c :: rest) then repl ++ (c :: rest).drop target.length
    else c :: replaceFirstAux target repl rest

def replaceFirst (s target repl : String) : String :=
  if target = "" then repl ++ s
  else String.mk (replaceFirstAux target.toList repl.toList s.toList)

/-! #### Atomic steps.  Each returns the state as left behind together
with the thrown error, if any; every path is validated before any file
access. -/

def stepReadFile (ws : String) (st : EngSt) (path : String)
    (saveAs : Option String) : EngSt × Option String :=
  let filePath := resolvePath ws st.vars path
  match validateFilePath ws filePath with
  | .error e => (st, some e)
  | .ok _ =>
    match fsRead st.fs filePath with
    | .error e => (st, some e)
    | .ok content =>
      if optStrTruthy saveAs then
        ({ st with vars := aset st.vars (saveAs.getD "") content }, none)
      else (st, none)

def stepWriteFile (ws : String) (st : EngSt) (path contentT : String) :
    EngSt × Option String :=
  let filePath := resolvePath ws st.vars path
  match validateFilePath ws filePath with
  | .error e => (st, some e)
  | .ok _ =>
    let content := resolveValue st.vars contentT
    ({ st with fs := fsWrite st.fs filePath content,
               changes := st.changes ++ [⟨"create", filePath, some content⟩] },
     none)

def stepUpdateFile (ws : String) (st : EngSt)
    (path operation target contentT : String) : EngSt × Option String :=
  let filePath := resolvePath ws st.vars path
  match validateFilePath ws filePath with
  | .error e => (st, some e)
  | .ok _ =>
    match fsRead st.fs filePath with
    | .error e => (st, some e)
    | .ok content =>
      let newContent := resolveValue st.vars contentT
      let content2 :=
        if operation = "insert_after" then
          replaceFirst content target (target ++ "\n" ++ newContent)
        else if operation = "replace" then newContent
        else if operation = "append" then content ++ "\n" ++ newContent
        else content
      ({ st with fs := fsWrite st.fs filePath content2,
                 changes := st.changes ++ [⟨"update", filePath, some content2⟩] },
       none)

def stepDeleteFile (ws : String) (st : EngSt) (path : String) :
    EngSt × Option String :=
  let filePath := resolvePath ws st.vars path
  match validateFilePath ws filePath with
  | .error e => (st, some e)
  | .ok _ =>
    match fsUnlink st.fs filePath with
    | .error e => (st, some e)
    | .ok fs2 =>
      ({ st with fs := fs2,
                 changes := st.changes ++ [⟨"delete", filePath, none⟩] }, none)

def stepRenameFile (ws : String) (st : EngSt) (src dst : String) :
    EngSt × Option String :=
  let fromPath := resolvePath ws st.vars src
  let toPath := resolvePath ws st.vars dst
  match validateFilePath ws fromPath with
  | .error e => (st, some e)
  | .ok _ =>
    match validateFilePath ws toPath with
    | .error e => (st, some e)
    | .ok _ =>
      match fsRead st.fs fromPath with
      | .error e => (st, some e)
      | .ok content =>
        ({ st with fs := fsWrite (aremove st.fs fromPath) toPath content,
                   changes := st.changes ++
                     [⟨"delete", fromPath, none⟩, ⟨"create", toPath, none⟩] },
         none)

/-! #### Step interpreter

`SkillEngine.executeStep`, the step loop of `executeSkill` and the
`for_each` handler.  The source spreads the state into a per-item copy
inside `for_each`, so the file tree, change log and backup map are
threaded through while variable bindings written inside the loop are
discarded when the iteration (or a thrown error) leaves it.  The
recursion over nested `for_each` bodies is indexed by an explicit fuel
bound only so the definition is structural and evaluates inside the
kernel; a run of the source on its finite step lists corresponds to any
sufficiently large fuel, and the theorems below hold for every fuel. -/

mutual
def executeStep : Nat → String → EngSt → Step → EngSt × Option String
  | 0, _, st, _ => (st, some "fuel exhausted")
  | fuel + 1, ws, st, step =>
    match step with
    | .read_file p sa => stepReadFile ws st p sa
    | .write_file p c => stepWriteFile ws st p c
    | .update_file p op tgt c => stepUpdateFile ws st p op tgt c
    | .delete_file p => stepDeleteFile ws st p
    | .rename_file s d => stepRenameFile ws st s d
    | .for_each items asVar body => forEachSteps fuel ws items asVar body st
    | .gen kind sa =>
      ({ st with
         vars := aset st.vars sa ("[Generated content for " ++ kind ++ "]") },
       none)
    | .throw_error msg =>
      (st, some (if optStrTruthy msg then msg.getD ""
                 else "Intentional error for testing"))
    | .unknown _ => (st, none)

def forEachSteps :
    Nat → String → List String → String → List Step → EngSt →
    EngSt × Option String
  | 0, _, _, _, _, st => (st, some "fuel exhausted")
  | fuel + 1, ws, items, asVar, body, st =>
    match items with
    | [] => (st, none)
    | item :: rest =>
      match executeStepList fuel ws body
          { st with vars := aset st.vars asVar item } with
      | (st2, some e) => ({ st2 with vars := st.vars }, some e)
      | (st2, none) =>
        forEachSteps fuel ws rest asVar body { st2 with vars := st.vars }

def executeStepList : Nat → String → List Step → EngSt → EngSt × Option String
  | 0, _, _, st => (st, some "fuel exhausted")
  | fuel + 1, ws, body, st =>
    match body with
    | [] => (st, none)
    | s :: rest =>
      match executeStep fuel ws st s with
      | (st2, some e) => (st2, some e)
      | (st2, none) => executeStepList fuel ws rest st2
end

/-! #### Backup and rollback -/

/-- `path.basename`: the last nonempty slash-separated segment. -/
def basename (p : String) : String :=
  match ((splitSlash p).filter (fun s => s ≠ "")).getLast? with
  | some s => s
  | none => ""

/-- `SkillEngine.createBackup`: copy every context file that exists into
the backup area under the workspace, recording original to backup path;
files that do not exist yet are skipped silently.  `stamp` is the string
of `Date.now()` at backup time. -/
def createBackup (ws stamp : String) (files : List String) (fs : FS) :
    List (String × String) × FS :=
  files.foldl (fun acc file =>
    match alookup acc.2 file with
    | some content =>
      let backupFile := ws ++ "/.skill-backups/" ++ stamp ++ "-" ++ basename file
      (aset acc.1 file backupFile, fsWrite acc.2 backupFile content)
    | none => acc) ([], fs)

structure RollbackReport where
  restoredCount : Nat
  failedCount : Nat
  failures : List String
  fs : FS
deriving DecidableEq, Repr

/-- The restore loop of `SkillEngine.rollback`: overwrite each original
with its backed-up content, counting successes and failures and
recording each original that could not be restored.  The modelled
failure mode is a missing backup file (the file-tree model has no
permission errors). -/
def restorePhase (fs : FS) (backupMap : List (String × String)) :
    RollbackReport :=
  backupMap.foldl (fun r entry =>
    match fsRead r.fs entry.2 with
    | .ok content =>
      { r with restoredCount := r.restoredCount + 1,
               fs := fsWrite r.fs entry.1 content }
    | .error e =>
      { r with failedCount := r.failedCount + 1,
               failures := r.failures ++ [entry.1 ++ ": " ++ e] })
    ⟨0, 0, [], fs⟩

/-- `SkillEngine.rollback`: with no backup map there is nothing to
restore; otherwise restore every entry, and delete the backup copies
only when every restore succeeded.  Counts and failing paths are logged
to the console only; the report never reaches the caller of
`executeSkill`. -/
def rollback (fs : FS) (backupMap : List (String × String)) :
    RollbackReport :=
  if backupMap = [] then ⟨0, 0, [], fs⟩
  else
    let r := restorePhase fs backupMap
    if r.failedCount = 0 then
      { r with fs := backupMap.foldl (fun f e => aremove f e.2) r.fs }
    else r

/-! #### Skill definitions, input validation and `executeSkill` -/

/-- A JavaScript input value as the input validator distinguishes them. -/
inductive JsVal where
  | vstr (s : String)
  | vnum (n : Int)
  | vbool (b : Bool)
  | varr (items : List String)
deriving DecidableEq, Repr

/-- One declared input of the skill schema. -/
structure InputDef where
  itype : String
  required : Bool
  options : Option (List String)
deriving DecidableEq, Repr

/-- One entry of the `validateInputs` loop: the required check, then the
per-type check when a value is present.  An unknown declared type
performs no check, like the switch default. -/
def validateInput1 (key : String) (d : InputDef) (v : Option JsVal) :
    Option String :=
  match v with
  | none => if d.required then some ("Missing required input: " ++ key) else none
  | some val =>
    if d.itype = "string" then
      match val with
      | .vstr _ => none
      | _ => some ("Input " ++ key ++ " must be a string")
    else if d.itype = "number" then
      match val with
      | .vnum _ => none
      | _ => some ("Input " ++ key ++ " must be a number")
    else if d.itype = "boolean" then
      match val with
      | .vbool _ => none
      | _ => some ("Input " ++ key ++ " must be a boolean")
    else if d.itype = "select" then
      match d.options, val with
      | some opts, .vstr s =>
        if s ∈ opts then none
        else some ("Input " ++ key ++ " must be one of: " ++
          String.intercalate ", " opts)
      | some opts, _ =>
        some ("Input " ++ key ++ " must be one of: " ++
          String.intercalate ", " opts)
      | none, _ => some ("Input " ++ key ++ " must be one of: undefined")
    else if d.itype = "multiselect" then
      match val with
      | .varr _ => none
      | _ => some ("Input " ++ key ++ " must be an array")
    else none

/-- `SkillEngine.validateInputs`: walk the declared inputs in order and
throw at the first violation. -/
def validateInputs (defs : List (String × InputDef))
    (inputs : List (String × JsVal)) : Option String :=
  match defs with
  | [] => none
  | (k, d) :: rest =>
    match validateInput1 k d (alookup inputs k) with
    | some e => some e
    | none => validateInputs rest inputs

/-- A pre-execution validation check of the skill schema. -/
inductive VCheck where
  | valid_javascript
  | no_syntax_errors
  | file_exists (path : String)
  | other (check : String)
deriving DecidableEq, Repr

/-- `SkillEngine.runValidation`: only `file_exists` does real work (the
two linting checks are no-ops in the source); its path is resolved but,
unlike step paths, not validated against the workspace root. -/
def runValidation (ws : String) (st : EngSt) (v : VCheck) : Option String :=
  match v with
  | .file_exists p =>
    let filePath := resolvePath ws st.vars p
    match fsRead st.fs filePath with
    | .ok _ => none
    | .error _ => some ("File not found: " ++ filePath)
  | _ => none

def runValidationList (ws : String) (st : EngSt) : List VCheck → Option String
  | [] => none
  | v :: rest =>
    match runValidation ws st v with
    | some e => some e
    | none => runValidationList ws st rest

/-- The parts of the parsed skill document `executeSkill` reads. -/
structure SkillDef where
  inputs : List (String × InputDef)
  execution : List Step
  validation : Option (List VCheck)
  success_message : String

/-- The `ExecutionResult` shape returned to the MCP caller. -/
structure ExecutionResult where
  success : Bool
  message : String
  changes : Option (List ChangeRec)
  error : Option String
deriving DecidableEq, Repr

/-- `SkillEngine.executeSkill`: validate inputs, back up the declared
context files, run the optional validation checks, execute the steps in
order; on success report the skill success message and the change list.
Any thrown error lands in the catch block, which runs `rollback` on the
state as left behind and returns the fixed failure message together with
the thrown error; `vars0` is the flattened substitution environment of
the fresh state (inputs and context). -/
def executeSkill (fuel : Nat) (ws stamp : String) (skill : SkillDef)
    (inputs : List (String × JsVal)) (contextFiles : List String)
    (vars0 : List (String × String)) (fs : FS) : ExecutionResult × FS :=
  match validateInputs skill.inputs inputs with
  | some e =>
    let r := rollback fs []
    ({ success := false,
       message := "Skill execution failed (changes have been rolled back)",
       changes := none, error := some e }, r.fs)
  | none =>
    let bk := createBackup ws stamp contextFiles fs
    let st0 : EngSt :=
      { fs := bk.2, vars := vars0, changes := [], backupMap := bk.1 }
    let vres :=
      match skill.validation with
      | some vs => runValidationList ws st0 vs
      | none => none
    match vres with
    | some e =>
      let r := rollback st0.fs st0.backupMap
      ({ success := false,
         message := "Skill execution failed (changes have been rolled back)",
         changes := none, error := some e }, r.fs)
    | none =>
      match executeStepList fuel ws skill.execution st0 with
      | (st1, none) =>
        ({ success := true, message := skill.success_message,
           changes := some st1.changes, error := none }, st1.fs)
      | (st1, some e) =>
        let r := rollback st1.fs st1.backupMap
        ({ success := false,
           message := "Skill execution failed (changes have been rolled back)",
           changes := none, error := some e }, r.fs)

/-! ### Sandbox containment lemmas -/

theorem alookup_append_single_ne {α : Type} (l : List (String × α))
    (k q : String) (v : α) (h : q ≠ k) :
    alookup (l ++ [(k, v)]) q = alookup l q := by
  induction l with
  | nil => simp [alookup, Ne.symm h]
  | cons p rest ih =>
    by_cases hp : p.1 = q
    · simp [alookup, hp]
    · simp [alookup, hp, ih]

theorem alookup_aset_ne {α : Type} (l : List (String × α)) (k q : String)
    (v : α) (h : q ≠ k) : alookup (aset l k v) q = alookup l q := by
  unfold aset
  split
  · exact alookup_aupdate_ne l k q _ h
  · exact alookup_append_single_ne l k q v h

theorem alookup_aremove_ne {α : Type} (l : List (String × α)) (k q : String)
    (h : q ≠ k) : alookup (aremove l k) q = alookup l q := by
  have hk : k ≠ q := Ne.symm h
  induction l with
  | nil => rfl
  | cons p rest ih =>
    by_cases hp : p.1 = k
    · have hpq : p.1 ≠ q := by rw [hp]; exact hk
      simp only [aremove, List.filter_cons] at ih ⊢
      rw [if_neg (by simp [hp])]
      rw [show alookup (p :: rest) q = alookup rest q by simp [alookup, hpq]]
      exact ih
    · by_cases hq2 : p.1 = q
      · simp only [aremove, List.filter_cons]
        rw [if_pos (by simp [hp])]
        simp [alookup, hq2]
      · simp only [aremove, List.filter_cons] at ih ⊢
        rw [if_pos (by simp [hp])]
        simp only [alookup]
        rw [if_neg hq2, if_neg hq2]
        exact ih

theorem validateFilePath_ok {ws k : String} {u : Unit}
    (h : validateFilePath ws k = .ok u) :
    strStartsWith (pathResolve1 k) (pathResolve1 ws) = true := by
  unfold validateFilePath at h
  cases hc : strStartsWith (pathResolve1 k) (pathResolve1 ws) with
  | true => rfl
  | false => rw [hc] at h; simp at h

theorem stepReadFile_fs (ws : String) (st : EngSt) (p : String)
    (sa : Option String) : (stepReadFile ws st p sa).1.fs = st.fs := by
  cases hv : validateFilePath ws (resolvePath ws st.vars p) with
  | error e => simp [stepReadFile, hv]
  | ok u =>
    cases hr : fsRead st.fs (resolvePath ws st.vars p) with
    | error e => simp [stepReadFile, hv, hr]
    | ok content =>
      by_cases hsa : optStrTruthy sa = true
      · simp [stepReadFile, hv, hr, hsa]
      · simp [stepReadFile, hv, hr, hsa]

theorem stepWriteFile_fs_outside (ws : String) (st : EngSt) (p c q : String)
    (hq : strStartsWith (pathResolve1 q) (pathResolve1 ws) = false) :
    alookup (stepWriteFile ws st p c).1.fs q = alookup st.fs q := by
  cases hv : validateFilePath ws (resolvePath ws st.vars p) with
  | error e => simp [stepWriteFile, hv]
  | ok u =>
    have hk := validateFilePath_ok hv
    have hne : q ≠ resolvePath ws st.vars p := by
      intro he
      rw [he] at hq
      rw [hq] at hk
      exact Bool.noConfusion hk
    simp only [stepWriteFile, hv, fsWrite]
    exact alookup_aset_ne _ _ _ _ hne

theorem stepUpdateFile_fs_outside (ws : String) (st : EngSt)
    (p op tgt c q : String)
    (hq : strStartsWith (pathResolve1 q) (pathResolve1 ws) = false) :
    alookup (stepUpdateFile ws st p op tgt c).1.fs q = alookup st.fs q := by
  cases hv : validateFilePath ws (resolvePath ws st.vars p) with
  | error e => simp [stepUpdateFile, hv]
  | ok u =>
    have hk := validateFilePath_ok hv
    have hne : q ≠ resolvePath ws st.vars p := by
      intro he
      rw [he] at hq
      rw [hq] at hk
      exact Bool.noConfusion hk
    cases hr : fsRead st.fs (resolvePath ws st.vars p) with
    | error e => simp [stepUpdateFile, hv, hr]
    | ok content =>
      simp only [stepUpdateFile, hv, hr, fsWrite]
      exact alookup_aset_ne _ _ _ _ hne

theorem stepDeleteFile_fs_outside (ws : String) (st : EngSt) (p q : String)
    (hq : strStartsWith (pathResolve1 q) (pathResolve1 ws) = false) :
    alookup (stepDeleteFile ws st p).1.fs q = alookup st.fs q := by
  cases hv : validateFilePath ws (resolvePath ws st.vars p) with
  | error e => simp [stepDeleteFile, hv]
  | ok u =>
    have hk := validateFilePath_ok hv
    have hne : q ≠ resolvePath ws st.vars p := by
      intro he
      rw [he] at hq
      rw [hq] at hk
      exact Bool.noConfusion hk
    cases hu : fsUnlink st.fs (resolvePath ws st.vars p) with
    | error e => simp [stepDeleteFile, hv, hu]
    | ok fs2 =>
      have hfs2 : fs2 = aremove st.fs (resolvePath ws st.vars p) := by
        unfold fsUnlink at hu
        cases hl : alookup st.fs (resolvePath ws st.vars p) with
        | none => rw [hl] at hu; simp at hu
        | some c => rw [hl] at hu; simp at hu; exact hu.symm
      simp only [stepDeleteFile, hv, hu]
      rw [hfs2]
      exact alookup_aremove_ne _ _ _ hne

theorem stepRenameFile_fs_outside (ws : String) (st : EngSt) (src dst q : String)
    (hq : strStartsWith (pathResolve1 q) (pathResolve1 ws) = false) :
    alookup (stepRenameFile ws st src dst).1.fs q = alookup st.fs q := by
  cases hv : validateFilePath ws (resolvePath ws st.vars src) with
  | error e => simp [stepRenameFile, hv]
  | ok u =>
    cases hv2 : validateFilePath ws (resolvePath ws st.vars dst) with
    | error e => simp [stepRenameFile, hv, hv2]
    | ok u2 =>
      have hk := validateFilePath_ok hv
      have hk2 := validateFilePath_ok hv2
      have hne : q ≠ resolvePath ws st.vars src := by
        intro he
        rw [he] at hq
        rw [hq] at hk
        exact Bool.noConfusion hk
      have hne2 : q ≠ resolvePath ws st.vars dst := by
        intro he
        rw [he] at hq
        rw [hq] at hk2
        exact Bool.noConfusion hk2
      cases hr : fsRead st.fs (resolvePath ws st.vars src) with
      | error e => simp [stepRenameFile, hv, hv2, hr]
      | ok content =>
        simp only [stepRenameFile, hv, hv2, hr, fsWrite]
        rw [alookup_aset_ne _ _ _ _ hne2]
        exact alookup_aremove_ne _ _ _ hne

/-- Outside the region the `startsWith` test accepts, no step of any kind
ever touches the file tree, at any fuel: nested `for_each` bodies are
covered by the induction. -/
theorem engine_fs_outside_frame (ws q : String)
    (hq : strStartsWith (pathResolve1 q) (pathResolve1 ws) = false) :
    ∀ fuel : Nat,
      (∀ st step,
        alookup (executeStep fuel ws st step).1.fs q = alookup st.fs q)
      ∧ (∀ items asVar body st,
        alookup (forEachSteps fuel ws items asVar body st).1.fs q
          = alookup st.fs q)
      ∧ (∀ body st,
        alookup (executeStepList fuel ws body st).1.fs q = alookup st.fs q) := by
  intro fuel
  induction fuel with
  | zero =>
    exact ⟨fun st step => rfl, fun items asVar body st => rfl,
           fun body st => rfl⟩
  | succ n ih =>
    obtain ⟨ihStep, ihFor, ihList⟩ := ih
    refine ⟨?_, ?_, ?_⟩
    · intro st step
      cases step with
      | read_file p sa =>
        simp only [executeStep]
        rw [stepReadFile_fs]
      | write_file p c =>
        simp only [executeStep]
        exact stepWriteFile_fs_outside ws st p c q hq
      | update_file p op tgt c =>
        simp only [executeStep]
        exact stepUpdateFile_fs_outside ws st p op tgt c q hq
      | delete_file p =>
        simp only [executeStep]
        exact stepDeleteFile_fs_outside ws st p q hq
      | rename_file s d =>
        simp only [executeStep]
        exact stepRenameFile_fs_outside ws st s d q hq
      | for_each items asVar body =>
        simp only [executeStep]
        exact ihFor items asVar body st
      | gen kind sa => simp only [executeStep]
      | throw_error msg => simp only [executeStep]
      | unknown kind => simp only [executeStep]
    · intro items asVar body st
      cases items with
      | nil => simp only [forEachSteps]
      | cons item rest =>
        simp only [forEachSteps]
        have h2 := ihList body { st with vars := aset st.vars asVar item }
        cases hrun : executeStepList n ws body
            { st with vars := aset st.vars asVar item } with
        | mk st2 err =>
          rw [hrun] at h2
          cases err with
          | some e =>
            simp only
            exact h2
          | none =>
            simp only
            rw [ihFor rest asVar body { st2 with vars := st.vars }]
            exact h2
    · intro body st
      cases body with
      | nil => simp only [executeStepList]
      | cons s rest =>
        simp only [executeStepList]
        have h2 := ihStep st s
        cases hrun : executeStep n ws st s with
        | mk st2 err =>
          rw [hrun] at h2
          cases err with
          | some e =>
            simp only
            exact h2
          | none =>
            simp only
            rw [ihList rest st2]
            exact h2

/-! ### C7: sandbox containment -/

def stC7 : EngSt :=
  { fs := [("/ws/a.txt", "A")], vars := [], changes := [], backupMap := [] }

/-- Modelled from the spec: a resolved path denotes a location inside the
workspace root when it is the root itself or lies strictly below it (the
root followed by a path separator). -/
def insideWorkspaceRoot (root p : String) : Bool :=
  p = pathResolve1 root || strStartsWith p (pathResolve1 root ++ "/")

/-- C7 counterexample: with workspace root `/ws`, the path `/wsevil/x`
resolves outside the root, yet a `write_file` step on it passes the
`startsWith` check and mutates the file tree instead of being rejected. -/
theorem sandbox_sibling_escape_cex :
    insideWorkspaceRoot "/ws" (resolvePath "/ws" [] "/wsevil/x") = false
    ∧ executeStep 9 "/ws" stC7 (.write_file "/wsevil/x" "boom")
        = ({ fs := [("/ws/a.txt", "A"), ("/wsevil/x", "boom")], vars := [],
             changes := [⟨"create", "/wsevil/x", some "boom"⟩],
             backupMap := [] }, none) := by
  decide

/-- C7 amended.  The check the engine actually enforces is the string
test `resolved.startsWith(workspaceRoot)`; a path outside the root that
shares the root as a string prefix (such as `/wsevil/x` under `/ws`)
passes it.  For every path failing that test: no step of any kind,
nested `for_each` bodies included, ever touches the file tree at such a
path, and each of the five file-step kinds on such a path is rejected
with `File path outside workspace not allowed` before any mutation
(for `rename_file`, for either of its two paths). -/
theorem sandbox_containment (fuel : Nat) (ws : String) (st : EngSt)
    (p p2 c op tgt : String) (sa : Option String) (step : Step) (q : String)
    (hq : strStartsWith (pathResolve1 q) (pathResolve1 ws) = false)
    (hp : strStartsWith (pathResolve1 (resolvePath ws st.vars p))
            (pathResolve1 ws) = false) :
    alookup (executeStep fuel ws st step).1.fs q = alookup st.fs q
    ∧ executeStep (fuel + 1) ws st (.read_file p sa)
        = (st, some "File path outside workspace not allowed")
    ∧ executeStep (fuel + 1) ws st (.write_file p c)
        = (st, some "File path outside workspace not allowed")
    ∧ executeStep (fuel + 1) ws st (.update_file p op tgt c)
        = (st, some "File path outside workspace not allowed")
    ∧ executeStep (fuel + 1) ws st (.delete_file p)
        = (st, some "File path outside workspace not allowed")
    ∧ executeStep (fuel + 1) ws st (.rename_file p p2)
        = (st, some "File path outside workspace not allowed")
    ∧ (strStartsWith (pathResolve1 (resolvePath ws st.vars p2))
         (pathResolve1 ws) = true →
       executeStep (fuel + 1) ws st (.rename_file p2 p)
         = (st, some "File path outside workspace not allowed")) := by
  have hv : validateFilePath ws (resolvePath ws st.vars p)
      = .error "File path outside workspace not allowed" := by
    simp [validateFilePath, hp]
  refine ⟨(engine_fs_outside_frame ws q hq fuel).1 st step,
          ?_, ?_, ?_, ?_, ?_, ?_⟩
  · simp only [executeStep]
    simp [stepReadFile, hv]
  · simp only [executeStep]
    simp [stepWriteFile, hv]
  · simp only [executeStep]
    simp [stepUpdateFile, hv]
  · simp only [executeStep]
    simp [stepDeleteFile, hv]
  · simp only [executeStep]
    simp [stepRenameFile, hv]
  · intro h2
    have hv2 : validateFilePath ws (resolvePath ws st.vars p2) = .ok () := by
      simp [validateFilePath, h2]
    simp only [executeStep]
    simp [stepRenameFile, hv2, hv]

/-- Witness for the amended C7 theorem: a `write_file` on `../outside`
(resolved to `/outside`) is rejected without touching the state. -/
theorem sandbox_containment_witness :
    executeStep 4 "/ws" stC7 (.write_file "../outside" "boom")
      = (stC7, some "File path outside workspace not allowed") :=
  (sandbox_containment 3 "/ws" stC7 "../outside" "/ws/ok" "boom" "replace" "t"
    none (.unknown "noop") "/outside" (by decide) (by decide)).2.2.1

/-! ### C8: rollback outcome reporting -/

/-- A skill whose steps corrupt the context file, delete its fresh backup
copy and then throw, so the rollback restore must fail. -/
def skillC8 : SkillDef :=
  { inputs := [],
    execution := [.write_file "/ws/f.txt" "corrupted",
                  .delete_file "/ws/.skill-backups/7-f.txt",
                  .throw_error none],
    validation := none, success_message := "done" }

def fsC8 : FS := [("/ws/f.txt", "C")]

/-- C8 counterexample: the rollback restore fails (the backup is gone and
the original keeps its corrupted content), yet the `ExecutionResult`
still carries the fixed message claiming changes were rolled back, and
no field names the file that could not be restored. -/
theorem rollback_partial_failure_hidden_cex :
    (executeSkill 9 "/ws" "7" skillC8 [] ["/ws/f.txt"] [] fsC8).1
      = { success := false,
          message := "Skill execution failed (changes have been rolled back)",
          changes := none, error := some "Intentional error for testing" }
    ∧ alookup (executeSkill 9 "/ws" "7" skillC8 [] ["/ws/f.txt"] [] fsC8).2
        "/ws/f.txt" = some "corrupted"
    ∧ (restorePhase
        (executeSkill 9 "/ws" "7" skillC8 [] ["/ws/f.txt"] [] fsC8).2
        [("/ws/f.txt", "/ws/.skill-backups/7-f.txt")]).failedCount = 1 := by
  decide

/-- The restore fold keeps one failure entry per failed restore. -/
theorem restoreFold_invariant (bm : List (String × String)) :
    ∀ r : RollbackReport, r.failures.length = r.failedCount →
      (List.foldl (fun r entry =>
        match fsRead r.fs entry.2 with
        | .ok content =>
          { r with restoredCount := r.restoredCount + 1,
                   fs := fsWrite r.fs entry.1 content }
        | .error e =>
          { r with failedCount := r.failedCount + 1,
                   failures := r.failures ++ [entry.1 ++ ": " ++ e] })
        r bm).failures.length
      = (List.foldl (fun r entry =>
        match fsRead r.fs entry.2 with
        | .ok content =>
          { r with restoredCount := r.restoredCount + 1,
                   fs := fsWrite r.fs entry.1 content }
        | .error e =>
          { r with failedCount := r.failedCount + 1,
                   failures := r.failures ++ [entry.1 ++ ": " ++ e] })
        r bm).failedCount := by
  induction bm with
  | nil => intro r h; exact h
  | cons e rest ih =>
    intro r h
    simp only [List.foldl_cons]
    apply ih
    cases hr : fsRead r.fs e.2 with
    | ok c => simp [hr, h]
    | error err => simp [hr, h]

/-- C8 amended.  On any failure `executeSkill` reports `success = false`
with the one fixed message `Skill execution failed (changes have been
rolled back)`, no change list and the triggering error — the result does
not distinguish a clean rollback from a partially failed one and never
names unrestored files (those are only counted and logged inside
`rollback`, which does keep every backup file when at least one restore
failed and records one failure entry per file it could not restore). -/
theorem executeSkill_failure_reporting (fuel : Nat) (ws stamp : String)
    (skill : SkillDef) (inputs : List (String × JsVal))
    (contextFiles : List String) (vars0 : List (String × String)) (fs : FS)
    (rfs : FS) (bm : List (String × String))
    (hfail : (executeSkill fuel ws stamp skill inputs contextFiles vars0
                fs).1.success = false) :
    (executeSkill fuel ws stamp skill inputs contextFiles vars0 fs).1.message
      = "Skill execution failed (changes have been rolled back)"
    ∧ (executeSkill fuel ws stamp skill inputs contextFiles vars0 fs).1.changes
      = none
    ∧ (executeSkill fuel ws stamp skill inputs contextFiles vars0
        fs).1.error.isSome = true
    ∧ ((restorePhase rfs bm).failedCount ≠ 0 →
        rollback rfs bm = restorePhase rfs bm)
    ∧ (restorePhase rfs bm).failures.length
      = (restorePhase rfs bm).failedCount := by
  have hkeep : (restorePhase rfs bm).failedCount ≠ 0 →
      rollback rfs bm = restorePhase rfs bm := by
    intro hne
    unfold rollback
    by_cases hbm : bm = []
    · subst hbm
      simp [restorePhase] at hne
    · rw [if_neg hbm, if_neg hne]
  have hcount : (restorePhase rfs bm).failures.length
      = (restorePhase rfs bm).failedCount := by
    unfold restorePhase
    exact restoreFold_invariant bm ⟨0, 0, [], rfs⟩ rfl
  cases hv : validateInputs skill.inputs inputs with
  | some e =>
    exact ⟨by simp [executeSkill, hv], by simp [executeSkill, hv],
           by simp [executeSkill, hv], hkeep, hcount⟩
  | none =>
    cases hval : skill.validation with
    | some vs =>
      cases hrv : runValidationList ws
          { fs := (createBackup ws stamp contextFiles fs).2, vars := vars0,
            changes := [],
            backupMap := (createBackup ws stamp contextFiles fs).1 } vs with
      | some e =>
        exact ⟨by simp [executeSkill, hv, hval, hrv],
               by simp [executeSkill, hv, hval, hrv],
               by simp [executeSkill, hv, hval, hrv], hkeep, hcount⟩
      | none =>
        cases hrun : executeStepList fuel ws skill.execution
            { fs := (createBackup ws stamp contextFiles fs).2, vars := vars0,
              changes := [],
              backupMap := (createBackup ws stamp contextFiles fs).1 } with
        | mk st1 err =>
          cases err with
          | none =>
            exfalso
            simp [executeSkill, hv, hval, hrv, hrun] at hfail
          | some e =>
            exact ⟨by simp [executeSkill, hv, hval, hrv, hrun],
                   by simp [executeSkill, hv, hval, hrv, hrun],
                   by simp [executeSkill, hv, hval, hrv, hrun], hkeep, hcount⟩
    | none =>
      cases hrun : executeStepList fuel ws skill.execution
          { fs := (createBackup ws stamp contextFiles fs).2, vars := vars0,
            changes := [],
            backupMap := (createBackup ws stamp contextFiles fs).1 } with
      | mk st1 err =>
        cases err with
        | none =>
          exfalso
          simp [executeSkill, hv, hval, hrun] at hfail
        | some e =>
          exact ⟨by simp [executeSkill, hv, hval, hrun],
                 by simp [executeSkill, hv, hval, hrun],
                 by simp [executeSkill, hv, hval, hrun], hkeep, hcount⟩

/-- Witness for the amended C8 theorem at the counterexample input. -/
theorem executeSkill_failure_reporting_witness :
    (executeSkill 9 "/ws" "7" skillC8 [] ["/ws/f.txt"] [] fsC8).1.message
      = "Skill execution failed (changes have been rolled back)" :=
  (executeSkill_failure_reporting 9 "/ws" "7" skillC8 [] ["/ws/f.txt"] []
    fsC8 fsC8 [] (by decide)).1
